import Mathlib

/-!
Verification of `shed/futures_ext/src/stream/stream_with_timeout.rs`.

`StreamWithTimeout<S>` wraps an inner stream `S` and a `Duration`; polling it
first short-circuits on the `done` latch, then lazily creates the deadline
timer (`tokio::time::delay_for(duration)`) on the first poll, polls the timer,
and only if the timer is still pending polls the inner stream.

The embedding: instants and durations are natural numbers.  A `Delay` created
at instant `t` with duration `d` is represented by its firing instant `t + d`
(polling it at instant `now` reports ready exactly when the firing instant is
at most `now`, matching tokio's `Delay`).  The inner stream is an arbitrary
deterministic state machine `σ → Nat → σ × Poll (Option α)`: each poll may
consult the current instant and returns the updated inner state together with
pending, an item, or end-of-stream.  `poll_next` is translated line by line
from the source; a driver `runPolls` iterates it over a list of poll instants.
-/

/-- One cooperative poll outcome: ready with a value, or pending. -/
inductive Poll (β : Type) where
  | ready (b : β)
  | pending
  deriving DecidableEq, Repr

deriving instance DecidableEq for Except

/-- Error returned when a `StreamWithTimeout` exceeds its deadline
(`StreamTimeoutError(Duration)` in the source). -/
structure StreamTimeoutError where
  duration : Nat
  deriving DecidableEq, Repr

/-- The human-readable message produced by the `thiserror` attribute
`#[error("Stream timeout with duration {:?} was exceeded", .0)]`,
parametrised by the rendering `fmt` of a `Duration` (Rust's `Debug`). -/
def StreamTimeoutError.message (fmt : Nat → String) (e : StreamTimeoutError) : String :=
  "Stream timeout with duration " ++ fmt e.duration ++ " was exceeded"

/-- The adapter state: the inner stream, the configured duration, the `done`
latch, and the lazily created deadline (the firing instant of the `Delay`). -/
structure StreamWithTimeout (σ : Type) where
  inner : σ
  duration : Nat
  done : Bool
  deadline : Option Nat
  deriving DecidableEq, Repr

/-- `StreamWithTimeout::new`. -/
def StreamWithTimeout.new (inner : σ) (duration : Nat) : StreamWithTimeout σ :=
  { inner := inner, duration := duration, done := false, deadline := none }

/-- An inner stream, as a deterministic state machine polled at an instant. -/
abbrev InnerPoll (σ α : Type) := σ → Nat → σ × Poll (Option α)

/-- The firing instant of the deadline used by a poll at instant `now`:
the stored one if the `Delay` already exists, otherwise `now + duration`
(`deadline.get_or_insert_with(|| tokio::time::delay_for(duration))`). -/
def fireAt (s : StreamWithTimeout σ) (now : Nat) : Nat :=
  s.deadline.getD (now + s.duration)

/-- `StreamWithTimeout::poll_next`, translated from the source: short-circuit
on `done`; create the deadline if absent; poll the deadline (ready exactly
when its firing instant has been reached), returning the timeout error and
setting `done` if it fired; otherwise poll the inner stream, propagating
pending, latching `done` on end-of-stream, and wrapping an item in `Ok`. -/
def poll_next (pi : InnerPoll σ α) (s : StreamWithTimeout σ) (now : Nat) :
    StreamWithTimeout σ × Poll (Option (Except StreamTimeoutError α)) :=
  if s.done then
    (s, Poll.ready none)
  else if fireAt s now ≤ now then
    ({ s with deadline := some (fireAt s now), done := true },
      Poll.ready (some (Except.error ⟨s.duration⟩)))
  else
    match pi s.inner now with
    | (inner2, Poll.pending) =>
        ({ s with deadline := some (fireAt s now), inner := inner2 }, Poll.pending)
    | (inner2, Poll.ready none) =>
        ({ s with deadline := some (fireAt s now), inner := inner2, done := true },
          Poll.ready none)
    | (inner2, Poll.ready (some a)) =>
        ({ s with deadline := some (fireAt s now), inner := inner2 },
          Poll.ready (some (Except.ok a)))

/-- Drive the adapter through a list of poll instants, collecting the outcome
of each `poll_next` call. -/
def runPolls (pi : InnerPoll σ α) :
    StreamWithTimeout σ → List Nat → List (Poll (Option (Except StreamTimeoutError α)))
  | _, [] => []
  | s, t :: ts => (poll_next pi s t).2 :: runPolls pi (poll_next pi s t).1 ts

/-- The adapter state just before the `i`-th poll of a run. -/
def stateAt (pi : InnerPoll σ α) :
    StreamWithTimeout σ → List Nat → Nat → StreamWithTimeout σ
  | s, _, 0 => s
  | s, [], _ + 1 => s
  | s, t :: ts, i + 1 => stateAt pi (poll_next pi s t).1 ts i

/-- The sequence a consumer sees: the ready outcomes of a run, in order
(pending outcomes produce nothing). -/
def produced (outs : List (Poll (Option (Except StreamTimeoutError α)))) :
    List (Option (Except StreamTimeoutError α)) :=
  outs.filterMap fun r => match r with
    | Poll.ready x => some x
    | Poll.pending => none

/-- Whether a poll outcome is the timeout error item. -/
def isTimeoutErr (r : Poll (Option (Except StreamTimeoutError α))) : Bool :=
  match r with
  | Poll.ready (some (Except.error _)) => true
  | _ => false

/-- How many timeout error items a run emitted. -/
def errCount (outs : List (Poll (Option (Except StreamTimeoutError α)))) : Nat :=
  outs.countP isTimeoutErr

/-- A scripted inner-stream response: pending, an item, or end-of-stream. -/
inductive InnerEv (α : Type) where
  | pend
  | item (a : α)
  | fin
  deriving DecidableEq, Repr

/-- A scripted inner stream: each poll consumes the next response of the
script; an exhausted script keeps reporting end-of-stream. -/
def scriptPoll : List (InnerEv α) → List (InnerEv α) × Poll (Option α)
  | [] => ([], Poll.ready none)
  | InnerEv.pend :: rest => (rest, Poll.pending)
  | InnerEv.item a :: rest => (rest, Poll.ready (some a))
  | InnerEv.fin :: rest => (rest, Poll.ready none)

/-- The scripted inner stream as an `InnerPoll` (it ignores the instant). -/
def scriptPi : InnerPoll (List (InnerEv α)) α :=
  fun evs _ => scriptPoll evs

/-- All items a script would ever yield, in order. -/
def scriptItems : List (InnerEv α) → List α
  | [] => []
  | InnerEv.item a :: rest => a :: scriptItems rest
  | InnerEv.pend :: rest => scriptItems rest
  | InnerEv.fin :: rest => scriptItems rest

/-- The items a script yields before it first signals end-of-stream. -/
def itemsBeforeFin : List (InnerEv α) → List α
  | [] => []
  | InnerEv.item a :: rest => a :: itemsBeforeFin rest
  | InnerEv.pend :: rest => itemsBeforeFin rest
  | InnerEv.fin :: _ => []

/-- Whether the next poll of the script reports end-of-stream. -/
def scriptAtEnd : List (InnerEv α) → Bool
  | [] => true
  | InnerEv.fin :: _ => true
  | InnerEv.pend :: _ => false
  | InnerEv.item _ :: _ => false

/-! ### Case-analysis lemmas for a single `poll_next` call -/

theorem poll_next_done {σ α : Type} (pi : InnerPoll σ α) (s : StreamWithTimeout σ) (t : Nat)
    (h : s.done = true) : poll_next pi s t = (s, Poll.ready none) := by
  simp [poll_next, h]

theorem poll_next_fired {σ α : Type} (pi : InnerPoll σ α) (s : StreamWithTimeout σ) (t : Nat)
    (h : s.done = false) (hf : fireAt s t ≤ t) :
    poll_next pi s t =
      ({ s with deadline := some (fireAt s t), done := true },
        Poll.ready (some (Except.error ⟨s.duration⟩))) := by
  simp [poll_next, h, hf]

theorem poll_next_inner_pending {σ α : Type} (pi : InnerPoll σ α) (s : StreamWithTimeout σ)
    (t : Nat) (i2 : σ) (h : s.done = false) (hf : ¬ fireAt s t ≤ t)
    (hp : pi s.inner t = (i2, Poll.pending)) :
    poll_next pi s t = ({ s with deadline := some (fireAt s t), inner := i2 }, Poll.pending) := by
  simp [poll_next, h, hf, hp]

theorem poll_next_inner_fin {σ α : Type} (pi : InnerPoll σ α) (s : StreamWithTimeout σ)
    (t : Nat) (i2 : σ) (h : s.done = false) (hf : ¬ fireAt s t ≤ t)
    (hp : pi s.inner t = (i2, Poll.ready none)) :
    poll_next pi s t =
      ({ s with deadline := some (fireAt s t), inner := i2, done := true },
        Poll.ready none) := by
  simp [poll_next, h, hf, hp]

theorem poll_next_inner_item {σ α : Type} (pi : InnerPoll σ α) (s : StreamWithTimeout σ)
    (t : Nat) (i2 : σ) (a : α) (h : s.done = false) (hf : ¬ fireAt s t ≤ t)
    (hp : pi s.inner t = (i2, Poll.ready (some a))) :
    poll_next pi s t =
      ({ s with deadline := some (fireAt s t), inner := i2 },
        Poll.ready (some (Except.ok a))) := by
  simp [poll_next, h, hf, hp]

/-- Exhaustive case analysis of one `poll_next` call. -/
theorem poll_next_cases {σ α : Type} (pi : InnerPoll σ α) (s : StreamWithTimeout σ) (t : Nat) :
    (s.done = true ∧ poll_next pi s t = (s, Poll.ready none)) ∨
    (s.done = false ∧ fireAt s t ≤ t ∧
      poll_next pi s t =
        ({ s with deadline := some (fireAt s t), done := true },
          Poll.ready (some (Except.error ⟨s.duration⟩)))) ∨
    (s.done = false ∧ ¬ fireAt s t ≤ t ∧ ∃ i2,
      (pi s.inner t = (i2, Poll.pending) ∧
        poll_next pi s t =
          ({ s with deadline := some (fireAt s t), inner := i2 }, Poll.pending)) ∨
      (pi s.inner t = (i2, Poll.ready none) ∧
        poll_next pi s t =
          ({ s with deadline := some (fireAt s t), inner := i2, done := true },
            Poll.ready none)) ∨
      (∃ a, pi s.inner t = (i2, Poll.ready (some a)) ∧
        poll_next pi s t =
          ({ s with deadline := some (fireAt s t), inner := i2 },
            Poll.ready (some (Except.ok a))))) := by
  cases hd : s.done with
  | true => exact Or.inl ⟨rfl, poll_next_done pi s t hd⟩
  | false =>
    by_cases hf : fireAt s t ≤ t
    · exact Or.inr (Or.inl ⟨rfl, hf, poll_next_fired pi s t hd hf⟩)
    · rcases hp : pi s.inner t with ⟨i2, r⟩
      refine Or.inr (Or.inr ⟨rfl, hf, i2, ?_⟩)
      cases r with
      | pending =>
        refine Or.inl ⟨rfl, ?_⟩
        rw [poll_next_inner_pending pi s t i2 hd hf hp, hd]
      | ready b =>
        cases b with
        | none =>
          refine Or.inr (Or.inl ⟨rfl, ?_⟩)
          rw [poll_next_inner_fin pi s t i2 hd hf hp]
        | some a =>
          refine Or.inr (Or.inr ⟨a, rfl, ?_⟩)
          rw [poll_next_inner_item pi s t i2 a hd hf hp, hd]

/-- `poll_next` never changes the configured duration. -/
theorem poll_next_duration {σ α : Type} (pi : InnerPoll σ α) (s : StreamWithTimeout σ)
    (t : Nat) : (poll_next pi s t).1.duration = s.duration := by
  rcases poll_next_cases pi s t with ⟨hd, he⟩ | ⟨hd, hf, he⟩ |
    ⟨hd, hf, i2, ⟨hp, he⟩ | ⟨hp, he⟩ | ⟨a, hp, he⟩⟩ <;> simp [he]

/-- An already-created deadline is never replaced by a poll. -/
theorem poll_next_deadline_frame {σ α : Type} (pi : InnerPoll σ α) (s : StreamWithTimeout σ)
    (t : Nat) (f : Nat) (h : s.deadline = some f) :
    (poll_next pi s t).1.deadline = some f := by
  have hfa : fireAt s t = f := by simp [fireAt, h]
  rcases poll_next_cases pi s t with ⟨hd, he⟩ | ⟨hd, hf, he⟩ |
    ⟨hd, hf, i2, ⟨hp, he⟩ | ⟨hp, he⟩ | ⟨a, hp, he⟩⟩ <;> simp [he, hfa, h]

/-- The `done` latch never goes back to false. -/
theorem poll_next_done_mono {σ α : Type} (pi : InnerPoll σ α) (s : StreamWithTimeout σ)
    (t : Nat) (h : s.done = true) : (poll_next pi s t).1.done = true := by
  rw [poll_next_done pi s t h]; exact h

/-- Once `done`, every poll of the run yields `Ready(None)` and nothing else. -/
theorem runPolls_done {σ α : Type} (pi : InnerPoll σ α) (s : StreamWithTimeout σ)
    (h : s.done = true) (ts : List Nat) :
    runPolls pi s ts = List.replicate ts.length (Poll.ready none) := by
  induction ts with
  | nil => rfl
  | cons t ts ih =>
    simp only [runPolls, poll_next_done pi s t h, List.length_cons, List.replicate_succ, ih]

theorem stateAt_done_mono {σ α : Type} (pi : InnerPoll σ α) (ts : List Nat) :
    ∀ (s : StreamWithTimeout σ) (i : Nat), s.done = true → (stateAt pi s ts i).done = true := by
  induction ts with
  | nil => intro s i h; cases i <;> exact h
  | cons t ts ih =>
    intro s i h
    cases i with
    | zero => exact h
    | succ j => exact ih (poll_next pi s t).1 j (poll_next_done_mono pi s t h)

theorem stateAt_duration {σ α : Type} (pi : InnerPoll σ α) (ts : List Nat) :
    ∀ (s : StreamWithTimeout σ) (i : Nat), (stateAt pi s ts i).duration = s.duration := by
  induction ts with
  | nil => intro s i; cases i <;> rfl
  | cons t ts ih =>
    intro s i
    cases i with
    | zero => rfl
    | succ j =>
      have h2 := ih (poll_next pi s t).1 j
      rw [poll_next_duration pi s t] at h2
      exact h2

theorem stateAt_deadline_frame {σ α : Type} (pi : InnerPoll σ α) (ts : List Nat) :
    ∀ (s : StreamWithTimeout σ) (i : Nat) (f : Nat), s.deadline = some f →
      (stateAt pi s ts i).deadline = some f := by
  induction ts with
  | nil => intro s i f h; cases i <;> exact h
  | cons t ts ih =>
    intro s i f h
    cases i with
    | zero => exact h
    | succ j => exact ih (poll_next pi s t).1 j f (poll_next_deadline_frame pi s t f h)

theorem produced_nil {α : Type} : produced ([] : List (Poll (Option (Except StreamTimeoutError α)))) = [] := rfl

theorem produced_cons_pending {α : Type} (outs : List (Poll (Option (Except StreamTimeoutError α)))) :
    produced (Poll.pending :: outs) = produced outs := rfl

theorem produced_cons_ready {α : Type} (x : Option (Except StreamTimeoutError α))
    (outs : List (Poll (Option (Except StreamTimeoutError α)))) :
    produced (Poll.ready x :: outs) = x :: produced outs := rfl

theorem produced_replicate_none {α : Type} (n : Nat) :
    produced (List.replicate n (Poll.ready (none : Option (Except StreamTimeoutError α)))) =
      List.replicate n none := by
  induction n with
  | zero => rfl
  | succ m ih => simp only [List.replicate_succ, produced_cons_ready, ih]

/-- A run started in the `done` state emits no timeout error. -/
theorem errCount_done {σ α : Type} (pi : InnerPoll σ α) (s : StreamWithTimeout σ)
    (h : s.done = true) (ts : List Nat) : errCount (runPolls pi s ts) = 0 := by
  rw [runPolls_done pi s h ts]
  induction ts.length with
  | zero => rfl
  | succ m ih =>
    simp only [errCount, List.replicate_succ, List.countP_cons, isTimeoutErr] at ih ⊢
    simpa using ih

theorem runPolls_cons {σ α : Type} (pi : InnerPoll σ α) (s : StreamWithTimeout σ) (t : Nat)
    (ts : List Nat) :
    runPolls pi s (t :: ts) = (poll_next pi s t).2 :: runPolls pi (poll_next pi s t).1 ts := rfl

theorem errCount_cons {α : Type} (r : Poll (Option (Except StreamTimeoutError α)))
    (outs : List (Poll (Option (Except StreamTimeoutError α)))) :
    errCount (r :: outs) = errCount outs + (if isTimeoutErr r = true then 1 else 0) := by
  simp [errCount, List.countP_cons]

/-- No run, from any state, ever emits more than one timeout error. -/
theorem errCount_le_one {σ α : Type} (pi : InnerPoll σ α) (ts : List Nat) :
    ∀ s : StreamWithTimeout σ, errCount (runPolls pi s ts) ≤ 1 := by
  induction ts with
  | nil => intro s; exact Nat.zero_le 1
  | cons t ts ih =>
    intro s
    rcases poll_next_cases pi s t with ⟨hd, he⟩ | ⟨hd, hf, he⟩ |
      ⟨hd, hf, i2, ⟨hp, he⟩ | ⟨hp, he⟩ | ⟨a, hp, he⟩⟩
    · simp [errCount_done pi s hd (t :: ts)]
    · have hdone2 : (poll_next pi s t).1.done = true := by rw [he]
      have h0 := errCount_done pi (poll_next pi s t).1 hdone2 ts
      rw [runPolls_cons, errCount_cons, h0, he]
      simp [isTimeoutErr]
    · rw [runPolls_cons, errCount_cons, he]
      simpa [isTimeoutErr] using ih ({ s with deadline := some (fireAt s t), inner := i2 })
    · rw [runPolls_cons, errCount_cons, he]
      simpa [isTimeoutErr] using
        ih ({ s with deadline := some (fireAt s t), inner := i2, done := true })
    · rw [runPolls_cons, errCount_cons, he]
      simpa [isTimeoutErr] using ih ({ s with deadline := some (fireAt s t), inner := i2 })

/-- A timeout error can only be the outcome of a poll on which the adapter was
still active and the deadline timer was observed fired, and it always carries
the state's configured duration. -/
theorem err_output_fired {σ α : Type} (pi : InnerPoll σ α) (ts : List Nat) :
    ∀ (s : StreamWithTimeout σ) (i : Nat) (e : StreamTimeoutError),
      i < ts.length →
      (runPolls pi s ts).getD i Poll.pending = Poll.ready (some (Except.error e)) →
      (stateAt pi s ts i).done = false ∧
      fireAt (stateAt pi s ts i) (ts.getD i 0) ≤ ts.getD i 0 ∧
      e = ⟨(stateAt pi s ts i).duration⟩ := by
  induction ts with
  | nil => intro s i e hi; exact absurd hi (Nat.not_lt_zero i)
  | cons t ts ih =>
    intro s i e hi hout
    cases i with
    | zero =>
      have hout0 : (poll_next pi s t).2 = Poll.ready (some (Except.error e)) := hout
      rcases poll_next_cases pi s t with ⟨hd, he⟩ | ⟨hd, hf, he⟩ |
        ⟨hd, hf, i2, ⟨hp, he⟩ | ⟨hp, he⟩ | ⟨a, hp, he⟩⟩
      · rw [he] at hout0; simp at hout0
      · rw [he] at hout0
        have hdur : (⟨s.duration⟩ : StreamTimeoutError) = e := by
          simpa using hout0
        exact ⟨hd, hf, hdur.symm⟩
      · rw [he] at hout0; simp at hout0
      · rw [he] at hout0; simp at hout0
      · rw [he] at hout0; simp at hout0
    | succ j =>
      have hj : j < ts.length := Nat.lt_of_succ_lt_succ hi
      exact ih (poll_next pi s t).1 j e hj hout

/-- If on some poll of the run the adapter is still active and observes the
deadline timer fired, the consumer-visible sequence is a prefix of the
script's items wrapped in `Ok`, then the one timeout error carrying the
configured duration, then `None` for the rest of the run. -/
theorem timeout_shape {α : Type} (ts : List Nat) :
    ∀ s : StreamWithTimeout (List (InnerEv α)), s.done = false →
      (∃ i, i < ts.length ∧ (stateAt scriptPi s ts i).done = false ∧
        fireAt (stateAt scriptPi s ts i) (ts.getD i 0) ≤ ts.getD i 0) →
      ∃ ys zs m, scriptItems s.inner = ys ++ zs ∧
        produced (runPolls scriptPi s ts) =
          ys.map (fun a => some (Except.ok a)) ++
            some (Except.error ⟨s.duration⟩) :: List.replicate m none := by
  induction ts with
  | nil =>
    intro s hs H
    obtain ⟨i, hi, _⟩ := H
    exact absurd hi (Nat.not_lt_zero i)
  | cons t ts ih =>
    intro s hs H
    by_cases hf : fireAt s t ≤ t
    · have he := poll_next_fired scriptPi s t hs hf
      refine ⟨[], scriptItems s.inner, ts.length, rfl, ?_⟩
      rw [runPolls_cons, he]
      show produced (Poll.ready (some (Except.error ⟨s.duration⟩)) ::
        runPolls scriptPi { s with deadline := some (fireAt s t), done := true } ts) = _
      rw [runPolls_done scriptPi _ rfl ts]
      show some (Except.error ⟨s.duration⟩) ::
        produced (List.replicate ts.length (Poll.ready none)) = _
      rw [produced_replicate_none]
      rfl
    · obtain ⟨i, hi, hdone_i, hfire_i⟩ := H
      cases i with
      | zero => exact absurd hfire_i hf
      | succ j =>
        have hj : j < ts.length := Nat.lt_of_succ_lt_succ hi
        cases hevs : s.inner with
        | nil =>
          have hp : scriptPi s.inner t = ([], Poll.ready (none : Option α)) := by
            rw [hevs]; rfl
          have he := poll_next_inner_fin scriptPi s t [] hs hf hp
          have hd2 : (poll_next scriptPi s t).1.done = true := by rw [he]
          have hmono := stateAt_done_mono scriptPi ts (poll_next scriptPi s t).1 j hd2
          have hcontra : (stateAt scriptPi s (t :: ts) (j + 1)).done = true := hmono
          rw [hcontra] at hdone_i
          exact Bool.noConfusion hdone_i
        | cons ev rest =>
          cases ev with
          | fin =>
            have hp : scriptPi s.inner t = (rest, Poll.ready (none : Option α)) := by
              rw [hevs]; rfl
            have he := poll_next_inner_fin scriptPi s t rest hs hf hp
            have hd2 : (poll_next scriptPi s t).1.done = true := by rw [he]
            have hmono := stateAt_done_mono scriptPi ts (poll_next scriptPi s t).1 j hd2
            have hcontra : (stateAt scriptPi s (t :: ts) (j + 1)).done = true := hmono
            rw [hcontra] at hdone_i
            exact Bool.noConfusion hdone_i
          | pend =>
            have hp : scriptPi s.inner t = (rest, (Poll.pending : Poll (Option α))) := by
              rw [hevs]; rfl
            have he := poll_next_inner_pending scriptPi s t rest hs hf hp
            have hs2 : (poll_next scriptPi s t).1.done = false := by rw [he]; exact hs
            have H2 : ∃ i2, i2 < ts.length ∧
                (stateAt scriptPi (poll_next scriptPi s t).1 ts i2).done = false ∧
                fireAt (stateAt scriptPi (poll_next scriptPi s t).1 ts i2) (ts.getD i2 0) ≤
                  ts.getD i2 0 := ⟨j, hj, hdone_i, hfire_i⟩
            obtain ⟨ys, zs, m, hsplit, hprod⟩ := ih (poll_next scriptPi s t).1 hs2 H2
            rw [he] at hsplit hprod
            refine ⟨ys, zs, m, ?_, ?_⟩
            · exact hsplit
            · rw [runPolls_cons, he]
              exact hprod
          | item a =>
            have hp : scriptPi s.inner t = (rest, Poll.ready (some a)) := by
              rw [hevs]; rfl
            have he := poll_next_inner_item scriptPi s t rest a hs hf hp
            have hs2 : (poll_next scriptPi s t).1.done = false := by rw [he]; exact hs
            have H2 : ∃ i2, i2 < ts.length ∧
                (stateAt scriptPi (poll_next scriptPi s t).1 ts i2).done = false ∧
                fireAt (stateAt scriptPi (poll_next scriptPi s t).1 ts i2) (ts.getD i2 0) ≤
                  ts.getD i2 0 := ⟨j, hj, hdone_i, hfire_i⟩
            obtain ⟨ys, zs, m, hsplit, hprod⟩ := ih (poll_next scriptPi s t).1 hs2 H2
            rw [he] at hsplit hprod
            refine ⟨a :: ys, zs, m, ?_, ?_⟩
            · exact congrArg (List.cons a) hsplit
            · rw [runPolls_cons, he]
              show some (Except.ok a) :: produced (runPolls scriptPi
                { s with deadline := some (fireAt s t), inner := rest } ts) = _
              rw [hprod]
              rfl

/-- If on some poll of the run the adapter is still active and the script
signals end-of-stream, while the timer was never observed fired on that poll
or any earlier one, the consumer-visible sequence is exactly the script's
items before its end, each wrapped in `Ok`, followed by `None` (at least once,
and on every further poll of the run) — no timeout error. -/
theorem pass_through_shape {α : Type} (ts : List Nat) :
    ∀ s : StreamWithTimeout (List (InnerEv α)), s.done = false →
      (∃ i, i < ts.length ∧ (stateAt scriptPi s ts i).done = false ∧
        scriptAtEnd (stateAt scriptPi s ts i).inner = true ∧
        (∀ j, j ≤ i → ¬ fireAt (stateAt scriptPi s ts j) (ts.getD j 0) ≤ ts.getD j 0)) →
      ∃ m, produced (runPolls scriptPi s ts) =
        (itemsBeforeFin s.inner).map (fun a => some (Except.ok a)) ++
          List.replicate (m + 1) (none : Option (Except StreamTimeoutError α)) := by
  induction ts with
  | nil =>
    intro s hs H
    obtain ⟨i, hi, _⟩ := H
    exact absurd hi (Nat.not_lt_zero i)
  | cons t ts ih =>
    intro s hs H
    obtain ⟨i, hi, hdone_i, hend, hnf⟩ := H
    have hf : ¬ fireAt s t ≤ t := hnf 0 (Nat.zero_le i)
    cases hevs : s.inner with
    | nil =>
      have hp : scriptPi s.inner t = ([], Poll.ready (none : Option α)) := by
        rw [hevs]; rfl
      have he := poll_next_inner_fin scriptPi s t [] hs hf hp
      have hd2 : (poll_next scriptPi s t).1.done = true := by rw [he]
      have hr := runPolls_done scriptPi (poll_next scriptPi s t).1 hd2 ts
      refine ⟨ts.length, ?_⟩
      rw [runPolls_cons, hr, he]
      show (none : Option (Except StreamTimeoutError α)) ::
        produced (List.replicate ts.length (Poll.ready none)) = _
      rw [produced_replicate_none]
      rfl
    | cons ev rest =>
      cases ev with
      | fin =>
        have hp : scriptPi s.inner t = (rest, Poll.ready (none : Option α)) := by
          rw [hevs]; rfl
        have he := poll_next_inner_fin scriptPi s t rest hs hf hp
        have hd2 : (poll_next scriptPi s t).1.done = true := by rw [he]
        have hr := runPolls_done scriptPi (poll_next scriptPi s t).1 hd2 ts
        refine ⟨ts.length, ?_⟩
        rw [runPolls_cons, hr, he]
        show (none : Option (Except StreamTimeoutError α)) ::
          produced (List.replicate ts.length (Poll.ready none)) = _
        rw [produced_replicate_none]
        rfl
      | pend =>
        cases i with
        | zero =>
          have hend0 : scriptAtEnd s.inner = true := hend
          rw [hevs] at hend0
          simp [scriptAtEnd] at hend0
        | succ j =>
          have hj : j < ts.length := Nat.lt_of_succ_lt_succ hi
          have hp : scriptPi s.inner t = (rest, (Poll.pending : Poll (Option α))) := by
            rw [hevs]; rfl
          have he := poll_next_inner_pending scriptPi s t rest hs hf hp
          have hs2 : (poll_next scriptPi s t).1.done = false := by rw [he]; exact hs
          have H2 : ∃ i2, i2 < ts.length ∧
              (stateAt scriptPi (poll_next scriptPi s t).1 ts i2).done = false ∧
              scriptAtEnd (stateAt scriptPi (poll_next scriptPi s t).1 ts i2).inner = true ∧
              (∀ j2, j2 ≤ i2 →
                ¬ fireAt (stateAt scriptPi (poll_next scriptPi s t).1 ts j2) (ts.getD j2 0) ≤
                  ts.getD j2 0) :=
            ⟨j, hj, hdone_i, hend, fun j2 hj2 => hnf (j2 + 1) (Nat.succ_le_succ hj2)⟩
          obtain ⟨m, hprod⟩ := ih (poll_next scriptPi s t).1 hs2 H2
          rw [he] at hprod
          refine ⟨m, ?_⟩
          rw [runPolls_cons, he]
          exact hprod
      | item a =>
        cases i with
        | zero =>
          have hend0 : scriptAtEnd s.inner = true := hend
          rw [hevs] at hend0
          simp [scriptAtEnd] at hend0
        | succ j =>
          have hj : j < ts.length := Nat.lt_of_succ_lt_succ hi
          have hp : scriptPi s.inner t = (rest, Poll.ready (some a)) := by
            rw [hevs]; rfl
          have he := poll_next_inner_item scriptPi s t rest a hs hf hp
          have hs2 : (poll_next scriptPi s t).1.done = false := by rw [he]; exact hs
          have H2 : ∃ i2, i2 < ts.length ∧
              (stateAt scriptPi (poll_next scriptPi s t).1 ts i2).done = false ∧
              scriptAtEnd (stateAt scriptPi (poll_next scriptPi s t).1 ts i2).inner = true ∧
              (∀ j2, j2 ≤ i2 →
                ¬ fireAt (stateAt scriptPi (poll_next scriptPi s t).1 ts j2) (ts.getD j2 0) ≤
                  ts.getD j2 0) :=
            ⟨j, hj, hdone_i, hend, fun j2 hj2 => hnf (j2 + 1) (Nat.succ_le_succ hj2)⟩
          obtain ⟨m, hprod⟩ := ih (poll_next scriptPi s t).1 hs2 H2
          rw [he] at hprod
          refine ⟨m, ?_⟩
          rw [runPolls_cons, he]
          exact congrArg (List.cons (some (Except.ok a))) hprod

/-- The first poll of a fresh adapter creates the deadline at the poll
instant plus the configured duration, whatever the inner stream does. -/
theorem poll_next_first_deadline {σ α : Type} (pi : InnerPoll σ α) (s : StreamWithTimeout σ)
    (t : Nat) (hdn : s.done = false) (hdl : s.deadline = none) :
    (poll_next pi s t).1.deadline = some (t + s.duration) := by
  have hfa : fireAt s t = t + s.duration := by simp [fireAt, hdl]
  rcases poll_next_cases pi s t with ⟨hd, he⟩ | ⟨hd, hf, he⟩ |
    ⟨hd, hf, i2, ⟨hp, he⟩ | ⟨hp, he⟩ | ⟨a, hp, he⟩⟩
  · rw [hdn] at hd; exact Bool.noConfusion hd
  · rw [he]; simp [hfa]
  · rw [he]; simp [hfa]
  · rw [he]; simp [hfa]
  · rw [he]; simp [hfa]

/-! ### The claims -/

/-- C1: if the deadline elapses strictly before the inner stream completes —
i.e. on some poll of the run the adapter is still active (neither completion
nor timeout has been latched) and the deadline timer is observed fired — then
the produced sequence is some prefix (possibly empty) of the inner stream's
items each wrapped as `Ok`, followed by exactly one
`Err (StreamTimeoutError duration)`, followed by `None` on every subsequent
poll of the run. -/
theorem C1_timeout_truncation {α : Type} (evs : List (InnerEv α)) (d : Nat) (ts : List Nat)
    (H : ∃ i, i < ts.length ∧
      (stateAt scriptPi (StreamWithTimeout.new evs d) ts i).done = false ∧
      fireAt (stateAt scriptPi (StreamWithTimeout.new evs d) ts i) (ts.getD i 0) ≤
        ts.getD i 0) :
    ∃ ys zs m, scriptItems evs = ys ++ zs ∧
      produced (runPolls scriptPi (StreamWithTimeout.new evs d) ts) =
        ys.map (fun a => some (Except.ok a)) ++
          some (Except.error ⟨d⟩) :: List.replicate m none :=
  timeout_shape ts (StreamWithTimeout.new evs d) rfl H

/-- Witness for C1: duration 1, inner items 1 then (after a pending poll) 2,
polls at instants 0, 0, 2, 3 — the timer is observed fired on the third poll. -/
theorem C1_witness :
    ∃ ys zs m, scriptItems [InnerEv.item 1, InnerEv.pend, InnerEv.item 2] = ys ++ zs ∧
      produced (runPolls scriptPi
        (StreamWithTimeout.new [InnerEv.item 1, InnerEv.pend, InnerEv.item 2] 1)
        [0, 0, 2, 3]) =
        ys.map (fun a => some (Except.ok a)) ++
          some (Except.error ⟨1⟩) :: List.replicate m (none : Option (Except StreamTimeoutError Nat)) :=
  C1_timeout_truncation [InnerEv.item 1, InnerEv.pend, InnerEv.item 2] 1 [0, 0, 2, 3]
    ⟨2, by decide, by decide, by decide⟩

/-- C2: if the inner stream yields its items and then signals completion, all
on polls at which the timer was never observed fired (and none earlier), the
adapter yields exactly those items wrapped as `Ok`, followed by end-of-stream
(`None`, on that poll and on every later poll of the run), and no timeout
error ever appears in the produced sequence. -/
theorem C2_pass_through {α : Type} (evs : List (InnerEv α)) (d : Nat) (ts : List Nat)
    (H : ∃ i, i < ts.length ∧
      (stateAt scriptPi (StreamWithTimeout.new evs d) ts i).done = false ∧
      scriptAtEnd (stateAt scriptPi (StreamWithTimeout.new evs d) ts i).inner = true ∧
      (∀ j, j ≤ i →
        ¬ fireAt (stateAt scriptPi (StreamWithTimeout.new evs d) ts j) (ts.getD j 0) ≤
          ts.getD j 0)) :
    (∃ m, produced (runPolls scriptPi (StreamWithTimeout.new evs d) ts) =
      (itemsBeforeFin evs).map (fun a => some (Except.ok a)) ++
        List.replicate (m + 1) none) ∧
    ∀ e : StreamTimeoutError,
      some (Except.error e) ∉ produced (runPolls scriptPi (StreamWithTimeout.new evs d) ts) := by
  obtain ⟨m, hprod⟩ := pass_through_shape ts (StreamWithTimeout.new evs d) rfl H
  refine ⟨⟨m, hprod⟩, ?_⟩
  intro e hmem
  rw [hprod] at hmem
  rcases List.mem_append.1 hmem with hmem | hmem
  · obtain ⟨a, _, hc⟩ := List.mem_map.1 hmem
    simp at hc
  · have hc := List.eq_of_mem_replicate hmem
    simp at hc

/-- Witness for C2: duration 1, inner yields 1 and 2 then completes, polls at
instants 0, 0, 0, 5 — the timer is never observed fired before completion. -/
theorem C2_witness :
    (∃ m, produced (runPolls scriptPi
      (StreamWithTimeout.new [InnerEv.item 1, InnerEv.item 2, InnerEv.fin] 1) [0, 0, 0, 5]) =
      (itemsBeforeFin [InnerEv.item 1, InnerEv.item 2, InnerEv.fin]).map
        (fun a => some (Except.ok a)) ++
        List.replicate (m + 1) (none : Option (Except StreamTimeoutError Nat))) ∧
    ∀ e : StreamTimeoutError,
      some (Except.error e) ∉ produced (runPolls scriptPi
        (StreamWithTimeout.new [InnerEv.item 1, InnerEv.item 2, InnerEv.fin] 1) [0, 0, 0, 5]) :=
  C2_pass_through [InnerEv.item 1, InnerEv.item 2, InnerEv.fin] 1 [0, 0, 0, 5]
    ⟨2, by decide, by decide, by decide, by decide⟩

/-- C3: the `done` latch becomes true exactly when the timer is observed
fired before completion, or when the inner stream signals completion; and
once `done` is true the state is absorbing — every subsequent poll returns
`Ready(None)` immediately with the state unchanged, whatever the inner
stream's poll function is (so neither the inner stream nor the timer is
consulted). -/
theorem C3_done_latch {σ α : Type} (pi : InnerPoll σ α) (s : StreamWithTimeout σ) (t : Nat)
    (ts : List Nat) :
    (s.done = true → poll_next pi s t = (s, Poll.ready none) ∧
      runPolls pi s ts = List.replicate ts.length (Poll.ready none)) ∧
    (s.done = false → ((poll_next pi s t).1.done = true ↔
      fireAt s t ≤ t ∨ (pi s.inner t).2 = Poll.ready none)) := by
  constructor
  · intro h
    exact ⟨poll_next_done pi s t h, runPolls_done pi s h ts⟩
  · intro h
    rcases poll_next_cases pi s t with ⟨hd, he⟩ | ⟨hd, hf, he⟩ |
      ⟨hd, hf, i2, ⟨hp, he⟩ | ⟨hp, he⟩ | ⟨a, hp, he⟩⟩
    · rw [h] at hd; exact Bool.noConfusion hd
    · simp [he, hf]
    · simp [he, hp, h, hf]
    · simp [he, hp]
    · simp [he, hp, h, hf]

/-- Witness for C3: a terminated adapter is absorbing at a concrete state,
and on a concrete active state `done` latches exactly per the disjunction. -/
theorem C3_witness :
    (poll_next scriptPi (⟨[InnerEv.item 4], 1, true, some 3⟩ :
        StreamWithTimeout (List (InnerEv Nat))) 9 =
      ((⟨[InnerEv.item 4], 1, true, some 3⟩ : StreamWithTimeout (List (InnerEv Nat))),
        Poll.ready none) ∧
      runPolls scriptPi (⟨[InnerEv.item 4], 1, true, some 3⟩ :
        StreamWithTimeout (List (InnerEv Nat))) [9, 10] =
        List.replicate 2 (Poll.ready none)) ∧
    ((poll_next scriptPi (⟨[InnerEv.fin], 1, false, some 5⟩ :
        StreamWithTimeout (List (InnerEv Nat))) 0).1.done = true ↔
      fireAt (⟨[InnerEv.fin], 1, false, some 5⟩ :
        StreamWithTimeout (List (InnerEv Nat))) 0 ≤ 0 ∨
      (scriptPi ([InnerEv.fin] : List (InnerEv Nat)) 0).2 = Poll.ready none) :=
  ⟨(C3_done_latch scriptPi ⟨[InnerEv.item 4], 1, true, some 3⟩ 9 [9, 10]).1 rfl,
    (C3_done_latch scriptPi ⟨[InnerEv.fin], 1, false, some 5⟩ 0 []).2 rfl⟩

/-- C4: the deadline is `None` at construction; the first poll of a fresh
adapter creates it at the poll instant plus the configured duration; an
existing deadline is never replaced by any poll; hence along any run of a
fresh adapter every state after the first poll carries the deadline created
at the first poll's instant — the budget is measured from the first poll. -/
theorem C4_lazy_deadline {σ α : Type} (pi : InnerPoll σ α) (inner : σ) (d : Nat)
    (s : StreamWithTimeout σ) (t : Nat) (ts : List Nat) :
    (StreamWithTimeout.new inner d).deadline = none ∧
    (s.done = false → s.deadline = none →
      (poll_next pi s t).1.deadline = some (t + s.duration)) ∧
    (∀ f, s.deadline = some f → (poll_next pi s t).1.deadline = some f) ∧
    (∀ i, 1 ≤ i →
      (stateAt pi (StreamWithTimeout.new inner d) (t :: ts) i).deadline = some (t + d)) := by
  refine ⟨rfl, ?_, ?_, ?_⟩
  · intro hdn hdl
    exact poll_next_first_deadline pi s t hdn hdl
  · intro f hf
    exact poll_next_deadline_frame pi s t f hf
  · intro i hi
    cases i with
    | zero => exact absurd hi (by decide)
    | succ j =>
      have h1 : (poll_next pi (StreamWithTimeout.new inner d) t).1.deadline = some (t + d) :=
        poll_next_first_deadline pi (StreamWithTimeout.new inner d) t rfl rfl
      exact stateAt_deadline_frame pi ts (poll_next pi (StreamWithTimeout.new inner d) t).1
        j (t + d) h1

/-- Witness for C4: fresh adapter with duration 7, first polled at instant 5;
its deadline is created at 12 and still 12 two polls later; and an existing
deadline 3 survives a poll. -/
theorem C4_witness :
    ((StreamWithTimeout.new ([InnerEv.pend, InnerEv.pend] : List (InnerEv Nat)) 7).deadline =
      none) ∧
    (poll_next scriptPi (StreamWithTimeout.new
      ([InnerEv.pend, InnerEv.pend] : List (InnerEv Nat)) 7) 5).1.deadline = some (5 + 7) ∧
    (poll_next scriptPi (⟨[InnerEv.pend], 9, false, some 3⟩ :
      StreamWithTimeout (List (InnerEv Nat))) 1).1.deadline = some 3 ∧
    (stateAt scriptPi (StreamWithTimeout.new
      ([InnerEv.pend, InnerEv.pend] : List (InnerEv Nat)) 7) [5, 6, 8] 2).deadline =
      some (5 + 7) :=
  have h := C4_lazy_deadline scriptPi ([InnerEv.pend, InnerEv.pend] : List (InnerEv Nat)) 7
    (StreamWithTimeout.new ([InnerEv.pend, InnerEv.pend] : List (InnerEv Nat)) 7) 5 [6, 8]
  have h2 := C4_lazy_deadline scriptPi ([InnerEv.pend] : List (InnerEv Nat)) 9
    (⟨[InnerEv.pend], 9, false, some 3⟩ : StreamWithTimeout (List (InnerEv Nat))) 1 []
  ⟨h.1, h.2.1 rfl rfl, h2.2.2.1 3 rfl, h.2.2.2 2 (by decide)⟩

/-- C5: in every run, at most one timeout error item is ever produced, and
any timeout error outcome occurs exactly on a poll at which the adapter was
still active and the deadline timer was observed fired — no later poll can
yield a second error. -/
theorem C5_single_error {σ α : Type} (pi : InnerPoll σ α) (s : StreamWithTimeout σ)
    (ts : List Nat) :
    errCount (runPolls pi s ts) ≤ 1 ∧
    (∀ i e, i < ts.length →
      (runPolls pi s ts).getD i Poll.pending = Poll.ready (some (Except.error e)) →
      (stateAt pi s ts i).done = false ∧
      fireAt (stateAt pi s ts i) (ts.getD i 0) ≤ ts.getD i 0) :=
  ⟨errCount_le_one pi ts s, fun i e hi hout =>
    ⟨(err_output_fired pi ts s i e hi hout).1, (err_output_fired pi ts s i e hi hout).2.1⟩⟩

/-- Witness for C5: duration 1, polls at 0, 2, 3, 4 against an all-pending
inner stream — exactly one error, emitted on the second poll, where the
adapter was active and the timer observed fired. -/
theorem C5_witness :
    errCount (runPolls scriptPi (StreamWithTimeout.new
      ([InnerEv.pend, InnerEv.pend, InnerEv.pend] : List (InnerEv Nat)) 1) [0, 2, 3, 4]) ≤ 1 ∧
    ((stateAt scriptPi (StreamWithTimeout.new
        ([InnerEv.pend, InnerEv.pend, InnerEv.pend] : List (InnerEv Nat)) 1)
        [0, 2, 3, 4] 1).done = false ∧
      fireAt (stateAt scriptPi (StreamWithTimeout.new
        ([InnerEv.pend, InnerEv.pend, InnerEv.pend] : List (InnerEv Nat)) 1)
        [0, 2, 3, 4] 1) ([0, 2, 3, 4].getD 1 0) ≤ [0, 2, 3, 4].getD 1 0) :=
  ⟨(C5_single_error scriptPi (StreamWithTimeout.new
      ([InnerEv.pend, InnerEv.pend, InnerEv.pend] : List (InnerEv Nat)) 1) [0, 2, 3, 4]).1,
    (C5_single_error scriptPi (StreamWithTimeout.new
      ([InnerEv.pend, InnerEv.pend, InnerEv.pend] : List (InnerEv Nat)) 1) [0, 2, 3, 4]).2
      1 ⟨1⟩ (by decide) (by decide)⟩

/-- C6: within a single poll in the active state the timer is polled before
the inner stream: if the timer is observed fired, the call returns the
timeout error even if the inner stream would have yielded an item on that
very poll, and the result does not depend on the inner stream's poll
function at all — the race resolves deterministically in favour of timeout. -/
theorem C6_timer_first {σ α : Type} (pi pi2 : InnerPoll σ α) (s : StreamWithTimeout σ)
    (t : Nat) (a : α) (hdone : s.done = false) (hfire : fireAt s t ≤ t)
    (_hready : (pi s.inner t).2 = Poll.ready (some a)) :
    (poll_next pi s t).2 = Poll.ready (some (Except.error ⟨s.duration⟩)) ∧
    poll_next pi s t = poll_next pi2 s t := by
  have h1 := poll_next_fired pi s t hdone hfire
  have h2 := poll_next_fired pi2 s t hdone hfire
  rw [h1, h2]
  exact ⟨rfl, rfl⟩

/-- Witness for C6: timer already expired (deadline 0, polled at 0) while the
inner stream has item 7 ready — the timeout error wins, and swapping the
inner stream for an always-pending one changes nothing. -/
theorem C6_witness :
    (poll_next scriptPi (⟨[InnerEv.item 7], 0, false, some 0⟩ :
      StreamWithTimeout (List (InnerEv Nat))) 0).2 =
      Poll.ready (some (Except.error ⟨0⟩)) ∧
    poll_next scriptPi (⟨[InnerEv.item 7], 0, false, some 0⟩ :
      StreamWithTimeout (List (InnerEv Nat))) 0 =
    poll_next (fun evs _ => (evs, Poll.pending)) (⟨[InnerEv.item 7], 0, false, some 0⟩ :
      StreamWithTimeout (List (InnerEv Nat))) 0 :=
  C6_timer_first scriptPi (fun evs _ => (evs, Poll.pending))
    (⟨[InnerEv.item 7], 0, false, some 0⟩ : StreamWithTimeout (List (InnerEv Nat))) 0 7
    rfl (by decide) (by decide)

/-- C7: any timeout error produced by a run of a freshly constructed adapter
carries exactly the duration the adapter was constructed with as its single
data field, and the error's human-readable message is
"Stream timeout with duration {duration} was exceeded" with the duration
rendered in place of the placeholder. -/
theorem C7_error_value {σ α : Type} (pi : InnerPoll σ α) (inner0 : σ) (d : Nat)
    (ts : List Nat) (fmt : Nat → String) :
    (∀ i e, i < ts.length →
      (runPolls pi (StreamWithTimeout.new inner0 d) ts).getD i Poll.pending =
        Poll.ready (some (Except.error e)) →
      e = ⟨d⟩) ∧
    (∀ e : StreamTimeoutError,
      e.message fmt = "Stream timeout with duration " ++ fmt e.duration ++ " was exceeded") := by
  refine ⟨?_, fun e => rfl⟩
  intro i e hi hout
  have h := (err_output_fired pi ts (StreamWithTimeout.new inner0 d) i e hi hout).2.2
  rw [h, stateAt_duration pi ts (StreamWithTimeout.new inner0 d) i]
  rfl

/-- Witness for C7: a run with duration 0 polled at instant 3 errors with
duration 0, and the rendered message for duration 5 is the expected string. -/
theorem C7_witness :
    (⟨0⟩ : StreamTimeoutError) = ⟨0⟩ ∧
    StreamTimeoutError.message (fun n => toString n) ⟨5⟩ =
      "Stream timeout with duration 5 was exceeded" := by
  refine ⟨(C7_error_value scriptPi ([InnerEv.pend] : List (InnerEv Nat)) 0 [3, 4]
    (fun n => toString n)).1 0 ⟨0⟩ (by decide) (by decide), ?_⟩
  have h := (C7_error_value scriptPi ([InnerEv.pend] : List (InnerEv Nat)) 0 [3, 4]
    (fun n => toString n)).2 ⟨5⟩
  rw [h]
  rfl

/-- C8 counterexample: the claim says a poll on which the inner stream yields
an item leaves the `deadline` field unchanged, but on the very first such
poll the deadline changes from `None` to `Some` (here `Some 5`), even though
the item is delivered wrapped as `Ok`. -/
theorem C8_counterexample :
    (poll_next scriptPi (StreamWithTimeout.new ([InnerEv.item 0] : List (InnerEv Nat)) 5) 0).2 =
      Poll.ready (some (Except.ok 0)) ∧
    (StreamWithTimeout.new ([InnerEv.item 0] : List (InnerEv Nat)) 5).deadline = none ∧
    (poll_next scriptPi (StreamWithTimeout.new
      ([InnerEv.item 0] : List (InnerEv Nat)) 5) 0).1.deadline = some 5 :=
  ⟨rfl, rfl, rfl⟩

/-- C8 (amended): whenever the inner stream yields an item — `α` is opaque,
so in particular an item that is itself an error value of the inner element
type — `poll_next` returns exactly that item wrapped as `Ok`, untransformed,
leaves `done` unchanged, and leaves an already-created deadline unchanged;
only the first poll changes the deadline, creating it (before the inner
stream is polled). -/
theorem C8_item_pass_through {σ α : Type} (pi : InnerPoll σ α) (s : StreamWithTimeout σ)
    (t : Nat) (a : α) (hdone : s.done = false) (hfire : ¬ fireAt s t ≤ t)
    (hitem : (pi s.inner t).2 = Poll.ready (some a)) :
    (poll_next pi s t).2 = Poll.ready (some (Except.ok a)) ∧
    (poll_next pi s t).1.done = s.done ∧
    (∀ f, s.deadline = some f → (poll_next pi s t).1.deadline = some f) := by
  have hp : pi s.inner t = ((pi s.inner t).1, Poll.ready (some a)) := by
    rw [← hitem]
  have he := poll_next_inner_item pi s t (pi s.inner t).1 a hdone hfire hp
  rw [he]
  refine ⟨rfl, rfl, ?_⟩
  intro f hf
  simp [fireAt, hf]

/-- Witness for C8 (amended): an adapter with an existing deadline 9 polled
at instant 2 delivers the ready item 6 as `Ok 6` and keeps `done` and the
deadline unchanged. -/
theorem C8_witness :
    (poll_next scriptPi (⟨[InnerEv.item 6], 7, false, some 9⟩ :
      StreamWithTimeout (List (InnerEv Nat))) 2).2 = Poll.ready (some (Except.ok 6)) ∧
    (poll_next scriptPi (⟨[InnerEv.item 6], 7, false, some 9⟩ :
      StreamWithTimeout (List (InnerEv Nat))) 2).1.done =
      (⟨[InnerEv.item 6], 7, false, some 9⟩ :
        StreamWithTimeout (List (InnerEv Nat))).done ∧
    (∀ f, (⟨[InnerEv.item 6], 7, false, some 9⟩ :
        StreamWithTimeout (List (InnerEv Nat))).deadline = some f →
      (poll_next scriptPi (⟨[InnerEv.item 6], 7, false, some 9⟩ :
        StreamWithTimeout (List (InnerEv Nat))) 2).1.deadline = some f) :=
  C8_item_pass_through scriptPi
    (⟨[InnerEv.item 6], 7, false, some 9⟩ : StreamWithTimeout (List (InnerEv Nat))) 2 6
    rfl (by decide) (by decide)

/-- C9: the constructor performs no validation — for every duration,
including zero, it returns the initial state `done = false`,
`deadline = None`; and with a zero duration the first poll yields the
timeout error (the timer is checked before the inner stream) and every
later poll of the run yields end-of-stream, so no inner item is ever
delivered. -/
theorem C9_new_no_validation {σ α : Type} (pi : InnerPoll σ α) (inner : σ) (d t : Nat)
    (ts : List Nat) :
    StreamWithTimeout.new inner d =
      { inner := inner, duration := d, done := false, deadline := none } ∧
    runPolls pi (StreamWithTimeout.new inner 0) (t :: ts) =
      Poll.ready (some (Except.error ⟨0⟩)) :: List.replicate ts.length (Poll.ready none) := by
  refine ⟨rfl, ?_⟩
  have hf : fireAt (StreamWithTimeout.new inner 0) t ≤ t := Nat.le_refl t
  have he := poll_next_fired pi (StreamWithTimeout.new inner 0) t rfl hf
  have hd2 : (poll_next pi (StreamWithTimeout.new inner 0) t).1.done = true := by rw [he]
  rw [runPolls_cons, runPolls_done pi _ hd2 ts, he]
  rfl

/-- C10: a poll that returns `Pending` leaves `done` false and the duration
unchanged, preserves an existing deadline, and at most creates the deadline
on the very first poll; and `done` can only have become true on a call that
was already terminal or that returned the timeout error or end-of-stream. -/
theorem C10_pending_frame {σ α : Type} (pi : InnerPoll σ α) (s : StreamWithTimeout σ)
    (t : Nat) :
    ((poll_next pi s t).2 = Poll.pending →
      (poll_next pi s t).1.done = false ∧
      (poll_next pi s t).1.duration = s.duration ∧
      (∀ f, s.deadline = some f → (poll_next pi s t).1.deadline = some f) ∧
      (s.deadline = none → (poll_next pi s t).1.deadline = some (t + s.duration))) ∧
    ((poll_next pi s t).1.done = true →
      s.done = true ∨
      (poll_next pi s t).2 = Poll.ready (some (Except.error ⟨s.duration⟩)) ∨
      (poll_next pi s t).2 = Poll.ready none) := by
  rcases poll_next_cases pi s t with ⟨hd, he⟩ | ⟨hd, hf, he⟩ |
    ⟨hd, hf, i2, ⟨hp, he⟩ | ⟨hp, he⟩ | ⟨a, hp, he⟩⟩
  · constructor
    · intro hpend
      rw [he] at hpend
      exact Poll.noConfusion hpend
    · intro _
      exact Or.inl hd
  · constructor
    · intro hpend
      rw [he] at hpend
      exact Poll.noConfusion hpend
    · intro _
      refine Or.inr (Or.inl ?_)
      rw [he]
  · constructor
    · intro _
      rw [he]
      refine ⟨hd, rfl, ?_, ?_⟩
      · intro f hf2
        simp [fireAt, hf2]
      · intro hf2
        simp [fireAt, hf2]
    · intro hdone2
      rw [he] at hdone2
      rw [hd] at hdone2
      exact Bool.noConfusion hdone2
  · constructor
    · intro hpend
      rw [he] at hpend
      exact Poll.noConfusion hpend
    · intro _
      refine Or.inr (Or.inr ?_)
      rw [he]
  · constructor
    · intro hpend
      rw [he] at hpend
      exact Poll.noConfusion hpend
    · intro hdone2
      rw [he] at hdone2
      rw [hd] at hdone2
      exact Bool.noConfusion hdone2

/-- Witness for C10: a fresh adapter with duration 5 polled at instant 0
against a pending inner stream returns `Pending`, stays active with duration
5, and creates its deadline at 0 + 5; a terminal state stays terminal. -/
theorem C10_witness :
    ((poll_next scriptPi (StreamWithTimeout.new
        ([InnerEv.pend] : List (InnerEv Nat)) 5) 0).1.done = false ∧
      (poll_next scriptPi (StreamWithTimeout.new
        ([InnerEv.pend] : List (InnerEv Nat)) 5) 0).1.duration =
        (StreamWithTimeout.new ([InnerEv.pend] : List (InnerEv Nat)) 5).duration ∧
      (∀ f, (StreamWithTimeout.new ([InnerEv.pend] : List (InnerEv Nat)) 5).deadline =
          some f →
        (poll_next scriptPi (StreamWithTimeout.new
          ([InnerEv.pend] : List (InnerEv Nat)) 5) 0).1.deadline = some f) ∧
      ((StreamWithTimeout.new ([InnerEv.pend] : List (InnerEv Nat)) 5).deadline = none →
        (poll_next scriptPi (StreamWithTimeout.new
          ([InnerEv.pend] : List (InnerEv Nat)) 5) 0).1.deadline =
          some (0 + (StreamWithTimeout.new ([InnerEv.pend] : List (InnerEv Nat)) 5).duration))) ∧
    ((⟨[], 5, true, some 9⟩ : StreamWithTimeout (List (InnerEv Nat))).done = true ∨
      (poll_next scriptPi (⟨[], 5, true, some 9⟩ :
        StreamWithTimeout (List (InnerEv Nat))) 0).2 =
        Poll.ready (some (Except.error ⟨5⟩)) ∨
      (poll_next scriptPi (⟨[], 5, true, some 9⟩ :
        StreamWithTimeout (List (InnerEv Nat))) 0).2 = Poll.ready none) :=
  ⟨(C10_pending_frame scriptPi (StreamWithTimeout.new
      ([InnerEv.pend] : List (InnerEv Nat)) 5) 0).1 (by decide),
    (C10_pending_frame scriptPi (⟨[], 5, true, some 9⟩ :
      StreamWithTimeout (List (InnerEv Nat))) 0).2 (by decide)⟩
